import Mathlib

/-!
Shallow embedding of the galeria Hybrid Identity Store
(src/backend/db_manager.py, src/backend/init_dbs.py,
src/backend/procesador_de_fotos.py).

Modelling conventions, each justified against the source:

- The SQLite connection created by DatabaseManager.conectar (db_manager.py:19-31)
  is modelled as a pair of relational snapshots: committed and current.
  Python sqlite3 opens an implicit transaction at the first write; commit()
  publishes the connection's pending writes, rollback() discards them.
  conectar never issues PRAGMA foreign_keys = ON (the PRAGMA inside
  init_dbs.py's SQL_SCHEMA runs on init_sql's own connection and the setting
  is per-connection, off by default), so FOREIGN KEY clauses are NOT enforced
  on the manager's connection; inserts with dangling references succeed.
  UNIQUE and NOT NULL constraints are always enforced by SQLite and are
  modelled on the pending (current) snapshot.
- AUTOINCREMENT row ids are modelled by per-table counters stored inside the
  relational snapshot, so a rollback also reverts the counters (SQLite's
  sqlite_sequence row is transactional).
- Embeddings are opaque values (lists of rationals); FAISS stores L2-normalized
  float vectors and IndexFlatIP returns the entry of maximal inner product.
  Both the normalization and the float inner product are abstracted into a
  similarity function sim passed to the search operations; mutating
  operations never need it.  faiss.write_index is modelled by copying the
  in-memory entry list to diskIndex.
- Columns never touched by any operation (fecha_importacion, tamanio_bytes,
  foto_avatar_id, fecha_registro) are omitted.  hash_md5 is nullable in the
  schema but every call site supplies a concrete md5 string, so the function
  parameter is a plain String.
- Python runtime errors that escape a function (TypeError from subscripting
  None in registrar_foto, AttributeError from the unset foto_id_actual in
  añadir_etiquetas) are modelled with Except PyErr.
-/

abbrev Emb := List ℚ

inductive PyErr where
  | typeErr
  | attrErr
deriving DecidableEq, Repr

/-- Row of table fotos (init_dbs.py:18-32). -/
structure Foto where
  id : Nat
  ruta_archivo : String
  hash_md5 : String
  fecha_creacion : Option String
  ancho : Option Int
  alto : Option Int
  procesada_facial : Bool
deriving DecidableEq, Repr

/-- Row of table personas (init_dbs.py:39-51). -/
structure Persona where
  id : Nat
  nombre : String
  es_conocida : Bool
  etiqueta_id : Option Nat
deriving DecidableEq, Repr

/-- Row of table rostros_detectados (init_dbs.py:54-69). -/
structure Rostro where
  id : Nat
  foto_id : Nat
  persona_id : Option Nat
  bbox_x : Int
  bbox_y : Int
  bbox_w : Int
  bbox_h : Int
  score_confianza : Option ℚ
  embedding_blob : Option Emb
deriving DecidableEq, Repr

/-- Row of table etiquetas (init_dbs.py:74-79). -/
structure Etiqueta where
  id : Nat
  texto : String
  tipo : String
  color : String
deriving DecidableEq, Repr

/-- Row of table fotos_etiquetas (init_dbs.py:82-90). -/
structure FotoEtiqueta where
  foto_id : Nat
  etiqueta_id : Nat
  asignacion_manual : Bool
deriving DecidableEq, Repr

/-- A relational snapshot: the five tables plus the AUTOINCREMENT counters. -/
structure DB where
  fotos : List Foto
  personas : List Persona
  rostros : List Rostro
  etiquetas : List Etiqueta
  fotos_etiquetas : List FotoEtiqueta
  nextFotoId : Nat
  nextPersonaId : Nat
  nextRostroId : Nat
  nextEtiquetaId : Nat
deriving DecidableEq, Repr

/-- The DatabaseManager's state: the sqlite connection (committed plus pending
snapshot) and the FAISS index, in RAM (index) and on disk (diskIndex). -/
structure DBM where
  committed : DB
  current : DB
  index : List (Nat × Emb)
  diskIndex : List (Nat × Emb)
deriving DecidableEq, Repr

def initDB : DB :=
  { fotos := [], personas := [], rostros := [], etiquetas := [], fotos_etiquetas := [],
    nextFotoId := 1, nextPersonaId := 1, nextRostroId := 1, nextEtiquetaId := 1 }

/-- Fresh manager over the empty schema and an empty FAISS index. -/
def initDBM : DBM :=
  { committed := initDB, current := initDB, index := [], diskIndex := [] }

/-- Second argument of registrar_foto in the source: a dict read with .get,
missing keys give None. -/
structure Metadatos where
  fecha : Option String
  ancho : Option Int
  alto : Option Int
deriving DecidableEq, Repr

/-- DatabaseManager.registrar_foto (db_manager.py:40-56).  INSERT INTO fotos;
on sqlite3.IntegrityError (ruta_archivo or hash_md5 UNIQUE) fall back to
SELECT id WHERE hash_md5 = ?.  When that SELECT finds no row (duplicate ruta
with a new hash) the source subscripts None, a TypeError. -/
def nuevaFoto (id : Nat) (ruta hash_md5 : String) (metadatos : Metadatos) : Foto :=
  { id := id, ruta_archivo := ruta, hash_md5 := hash_md5,
    fecha_creacion := metadatos.fecha, ancho := metadatos.ancho, alto := metadatos.alto,
    procesada_facial := false }

def registrar_foto (m : DBM) (ruta hash_md5 : String) (metadatos : Metadatos) :
    DBM × Except PyErr Nat :=
  if m.current.fotos.any (fun f => f.ruta_archivo = ruta ∨ f.hash_md5 = hash_md5) then
    match m.current.fotos.find? (fun f => f.hash_md5 = hash_md5) with
    | some fila => (m, Except.ok fila.id)
    | none => (m, Except.error PyErr.typeErr)
  else
    let fid := m.current.nextFotoId
    let db1 : DB := { m.current with
      fotos := m.current.fotos ++ [nuevaFoto fid ruta hash_md5 metadatos],
      nextFotoId := fid + 1 }
    ({ m with current := db1, committed := db1 }, Except.ok fid)

/-- DatabaseManager.guardar_cambios_faiss (db_manager.py:33-35):
faiss.write_index copies the RAM index to disk. -/
def guardar_cambios_faiss (m : DBM) : DBM :=
  { m with diskIndex := m.index }

/-- FAISS IndexIDMap(IndexFlatIP) search with k = 1: the stored entry of
maximal inner product with the normalized query wins, earliest entry on ties;
an empty index yields the sentinel id -1.  sim q v abstracts the float inner
product of the normalized query q with the stored (normalized) vector v. -/
def faissSearch1 (sim : Emb → Emb → ℚ) (entries : List (Nat × Emb)) (q : Emb) : Int × ℚ :=
  match entries with
  | [] => (-1, 0)
  | e :: es =>
    es.foldl (fun best cur => if sim q cur.2 > best.2 then ((cur.1 : Int), sim q cur.2) else best)
      ((e.1 : Int), sim q e.2)

/-- SELECT persona_id FROM rostros_detectados WHERE id = ? (db_manager.py:182-185);
fetchone returns the first matching row. -/
def buscarRostroPorId (db : DB) (idr : Int) : Option Rostro :=
  db.rostros.find? (fun r => (r.id : Int) = idr)

/-- DatabaseManager.identificar_persona_por_vector (db_manager.py:156-192).
Returns (persona id or None, cosine distance).  Mirrors the source: empty
index short-circuits with distance 1.0; otherwise the nearest neighbour is
accepted when distancia < umbral and the id is not the -1 sentinel and the
face row exists with a truthy persona_id. -/
def identificar_persona_por_vector (sim : Emb → Emb → ℚ) (m : DBM) (embedding : Emb)
    (umbral : ℚ := 55/100) : Option Nat × ℚ :=
  if m.index = [] then
    (none, 1)
  else
    let best := faissSearch1 sim m.index embedding
    let distancia : ℚ := 1 - best.2
    if distancia < umbral ∧ best.1 ≠ -1 then
      match buscarRostroPorId m.current best.1 with
      | some resultado =>
        match resultado.persona_id with
        | some pid => if pid ≠ 0 then (some pid, distancia) else (none, distancia)
        | none => (none, distancia)
      | none => (none, distancia)
    else
      (none, distancia)

/-- One element of guardar_rostros_detectados's input list: a DeepFace dict
with keys embedding, facial_area, face_confidence. -/
structure Area where
  x : Int
  y : Int
  w : Int
  h : Int
deriving DecidableEq, Repr

structure RostroDeep where
  embedding : Emb
  facial_area : Area
  face_confidence : ℚ
deriving DecidableEq, Repr

/-- The row inserted by the SQL loop of guardar_rostros_detectados
(db_manager.py:77-83): foto_id, bbox, score; persona_id and embedding_blob
are left NULL. -/
def mkRostroGuardado (rid foto_id : Nat) (r : RostroDeep) : Rostro :=
  { id := rid, foto_id := foto_id, persona_id := none,
    bbox_x := r.facial_area.x, bbox_y := r.facial_area.y,
    bbox_w := r.facial_area.w, bbox_h := r.facial_area.h,
    score_confianza := some r.face_confidence, embedding_blob := none }

/-- The per-face INSERT loop of guardar_rostros_detectados (db_manager.py:71-88):
each insert takes the next AUTOINCREMENT id, which is also collected for the
returned list and for FAISS. -/
def insertarRostrosSQL (foto_id : Nat) : List RostroDeep → DB → DB × List Nat
  | [], db => (db, [])
  | rostro :: resto, db =>
    let nuevo_id := db.nextRostroId
    let db1 : DB := { db with
      rostros := db.rostros ++ [mkRostroGuardado nuevo_id foto_id rostro],
      nextRostroId := nuevo_id + 1 }
    let res := insertarRostrosSQL foto_id resto db1
    (res.1, nuevo_id :: res.2)

/-- DatabaseManager.guardar_rostros_detectados (db_manager.py:61-104):
SQL inserts, commit, then (for a non-empty batch) add_with_ids into FAISS
with the freshly generated SQL ids and write the index to disk. -/
def guardar_rostros_detectados (m : DBM) (foto_id : Nat) (lista : List RostroDeep) :
    DBM × List Nat :=
  let res := insertarRostrosSQL foto_id lista m.current
  let m1 : DBM := { m with current := res.1, committed := res.1 }
  if lista = [] then
    (m1, res.2)
  else
    let m2 : DBM := { m1 with index := m1.index ++ res.2.zip (lista.map fun r => r.embedding) }
    (guardar_cambios_faiss m2, res.2)

/-- DatabaseManager.crear_o_recuperar_etiqueta (db_manager.py:194-218).
INSERT INTO etiquetas then commit; on the UNIQUE(texto) IntegrityError the
source calls self.conn.rollback() on the shared connection (discarding every
pending write of the surrounding call, not only this insert) and falls back
to a SELECT by texto. -/
def crear_o_recuperar_etiqueta (m : DBM) (texto : String) (tipo : String := "persona")
    (color : String := "#3498db") : DBM × Option Nat :=
  if m.current.etiquetas.any (fun e => e.texto = texto) then
    let m1 : DBM := { m with current := m.committed }
    match m1.current.etiquetas.find? (fun e => e.texto = texto) with
    | some resultado => (m1, some resultado.id)
    | none => (m1, none)
  else
    let eid := m.current.nextEtiquetaId
    let fila : Etiqueta := { id := eid, texto := texto, tipo := tipo, color := color }
    let db1 : DB := { m.current with
      etiquetas := m.current.etiquetas ++ [fila],
      nextEtiquetaId := eid + 1 }
    ({ m with current := db1, committed := db1 }, some eid)

/-- The face row inserted by registrar_nueva_persona (db_manager.py:267-272):
bound to the new persona, with the embedding backed up as a blob and no
confidence score. -/
def nuevoRostroRegistrado (id foto_id persona_id : Nat) (embedding : Emb) (area : Area) :
    Rostro :=
  { id := id, foto_id := foto_id, persona_id := some persona_id,
    bbox_x := area.x, bbox_y := area.y, bbox_w := area.w, bbox_h := area.h,
    score_confianza := none, embedding_blob := some embedding }

/-- DatabaseManager.registrar_nueva_persona (db_manager.py:220-294).
INSERT persona, get-or-create the tag (which commits or rolls back the shared
connection mid-flight), UPDATE the persona's name and tag binding, INSERT the
face row (foreign keys unenforced on this connection), commit, then add the
vector to FAISS under the face id and persist.  With well-typed inputs no
statement after the tag step can raise, so the source's except branch is
unreachable here. -/
def registrar_nueva_persona (m : DBM) (foto_id : Nat) (embedding : Emb) (area : Area)
    (nombre : String := "Persona Nueva") : DBM × Option Nat :=
  let pid := m.current.nextPersonaId
  let nuevaPersona : Persona :=
    { id := pid, nombre := nombre, es_conocida := false, etiqueta_id := none }
  let db1 : DB := { m.current with
    personas := m.current.personas ++ [nuevaPersona],
    nextPersonaId := pid + 1 }
  let m1 : DBM := { m with current := db1 }
  let nombre_final := if nombre = "" then "Desconocido " ++ toString pid else nombre
  let r2 := crear_o_recuperar_etiqueta m1 nombre_final "persona"
  let m2 := r2.1
  let etiqueta_id := r2.2
  let db2 : DB := { m2.current with
    personas := m2.current.personas.map fun p =>
      if p.id = pid then { p with nombre := nombre_final, etiqueta_id := etiqueta_id } else p }
  let rid := db2.nextRostroId
  let db3 : DB := { db2 with
    rostros := db2.rostros ++ [nuevoRostroRegistrado rid foto_id pid embedding area],
    nextRostroId := rid + 1 }
  let m3 : DBM := { m2 with current := db3, committed := db3 }
  let m4 : DBM := { m3 with index := m3.index ++ [(rid, embedding)] }
  (guardar_cambios_faiss m4, some pid)

/-- UPDATE etiquetas SET texto = nuevo WHERE texto = antiguo AND tipo =
persona (db_manager.py:320-323).  none models the sqlite3.IntegrityError
raised when a matched row is rewritten to a texto already held by a
different row (textos are UNIQUE, so at most one row matches). -/
def updateEtiquetasTexto (ets : List Etiqueta) (antiguo nuevo : String) :
    Option (List Etiqueta) :=
  if (ets.any fun e => e.texto = antiguo ∧ e.tipo = "persona") ∧
      (ets.any fun e => e.texto = nuevo ∧ ¬(e.texto = antiguo ∧ e.tipo = "persona")) then
    none
  else
    some (ets.map fun e =>
      if e.texto = antiguo ∧ e.tipo = "persona" then { e with texto := nuevo } else e)

/-- DatabaseManager.renombrar_persona (db_manager.py:296-340). -/
def renombrar_persona (m : DBM) (persona_id : Nat) (nuevo_nombre : String) : DBM × Bool :=
  match m.current.personas.find? (fun p => p.id = persona_id) with
  | none => (m, false)
  | some res =>
    let nombre_antiguo := res.nombre
    let db1 : DB := { m.current with
      personas := m.current.personas.map fun p =>
        if p.id = persona_id then { p with nombre := nuevo_nombre, es_conocida := true } else p }
    match updateEtiquetasTexto db1.etiquetas nombre_antiguo nuevo_nombre with
    | none => ({ m with current := m.committed }, false)
    | some ets =>
      let db2 : DB := { db1 with etiquetas := ets }
      ({ m with current := db2, committed := db2 }, true)

/-- DatabaseManager.asignar_etiqueta (db_manager.py:342-359): INSERT OR IGNORE
into fotos_etiquetas (duplicate composite key is a no-op), commit, True. -/
def asignar_etiqueta (m : DBM) (foto_id etiqueta_id : Nat) (manual : Bool := false) :
    DBM × Bool :=
  let db1 : DB :=
    if m.current.fotos_etiquetas.any
        (fun fe => fe.foto_id = foto_id ∧ fe.etiqueta_id = etiqueta_id) then
      m.current
    else
      { m.current with fotos_etiquetas := m.current.fotos_etiquetas ++
          [{ foto_id := foto_id, etiqueta_id := etiqueta_id, asignacion_manual := manual }] }
  ({ m with current := db1, committed := db1 }, true)

/-- DatabaseManager.obtener_etiqueta_id_de_persona (db_manager.py:361-370).
The persona_id argument may be None at the call site in añadir_etiquetas
(registrar_nueva_persona returns None on failure); WHERE id = NULL matches no
row.  The source returns the etiqueta only when resultado[0] is truthy. -/
def obtener_etiqueta_id_de_persona (m : DBM) (persona_id : Option Nat) : Option Nat :=
  match persona_id with
  | none => none
  | some pid =>
    match m.current.personas.find? (fun p => p.id = pid) with
    | some resultado =>
      match resultado.etiqueta_id with
      | some e => if e ≠ 0 then some e else none
      | none => none
    | none => none

/-- DatabaseManager.obtener_ruta_foto (db_manager.py:372-380). -/
def obtener_ruta_foto (m : DBM) (foto_id : Nat) : Option String :=
  match m.current.fotos.find? (fun f => f.id = foto_id) with
  | some resultado => some resultado.ruta_archivo
  | none => none

/-- DatabaseManager.marcar_foto_como_procesada (db_manager.py:382-397). -/
def marcar_foto_como_procesada (m : DBM) (foto_id : Nat) : DBM × Bool :=
  let db1 : DB := { m.current with
    fotos := m.current.fotos.map fun f =>
      if f.id = foto_id then { f with procesada_facial := true } else f }
  ({ m with current := db1, committed := db1 }, true)

/-- One element of ProcesadorDeFotos.procesando_caras's input: a DeepFace dict;
only embedding and facial_area are read there. -/
structure Cara where
  embedding : Emb
  facial_area : Area
deriving DecidableEq, Repr

/-- ProcesadorDeFotos (procesador_de_fotos.py:24-38).  The constructor stores
id_foto and ruta_foto; the attribute foto_id_actual read by añadir_etiquetas
is never assigned anywhere in the class, so reading it raises AttributeError:
it is modelled as an always-none field. -/
structure ProcesadorDeFotos where
  db : DBM
  id_foto : Nat
  ruta_foto : String
  foto_id_actual : Option Nat := none
deriving DecidableEq, Repr

/-- ProcesadorDeFotos.procesando_caras (procesador_de_fotos.py:67-96).
For each face: identify by vector; on a miss the source registers a new
person with the hardcoded literal foto_id=15 and nombre "Desconocido". -/
def procesando_caras (sim : Emb → Emb → ℚ) (p : ProcesadorDeFotos) (caras : List Cara) :
    ProcesadorDeFotos × List (Option Nat) :=
  caras.foldl
    (fun acc cara =>
      let pr := acc.1
      let ids := acc.2
      match (identificar_persona_por_vector sim pr.db cara.embedding).1 with
      | some id_persona => (pr, ids ++ [some id_persona])
      | none =>
        let r := registrar_nueva_persona pr.db 15 cara.embedding cara.facial_area "Desconocido"
        ({ pr with db := r.1 }, ids ++ [r.2]))
    (p, [])

/-- Loop body of ProcesadorDeFotos.añadir_etiquetas (procesador_de_fotos.py:108-123).
When a person has a tag, the source calls asignar_etiqueta with
foto_id=self.foto_id_actual; evaluating that attribute raises AttributeError
(the field was never set), modelled by the none branch. -/
def anadirEtiquetasLoop (p : ProcesadorDeFotos) :
    List (Option Nat) → Except PyErr ProcesadorDeFotos
  | [] => Except.ok p
  | persona_id :: resto =>
    match obtener_etiqueta_id_de_persona p.db persona_id with
    | some etiqueta_id =>
      match p.foto_id_actual with
      | none => Except.error PyErr.attrErr
      | some fid =>
        let r := asignar_etiqueta p.db fid etiqueta_id false
        anadirEtiquetasLoop { p with db := r.1 } resto
    | none => anadirEtiquetasLoop p resto

/-- ProcesadorDeFotos.añadir_etiquetas (procesador_de_fotos.py:98-123). -/
def anadir_etiquetas (p : ProcesadorDeFotos) (ids_encontrados : List (Option Nat)) :
    Except PyErr ProcesadorDeFotos :=
  if ids_encontrados = [] then Except.ok p
  else anadirEtiquetasLoop p ids_encontrados

/-- The mutating operations of the store, with their inputs: the alphabet of
the reachability relation.  The read-only lookups do not change state. -/
inductive Op where
  | opRegistrarFoto (ruta hash_md5 : String) (metadatos : Metadatos)
  | opGuardarRostros (foto_id : Nat) (lista : List RostroDeep)
  | opRegistrarPersona (foto_id : Nat) (embedding : Emb) (area : Area) (nombre : String)
  | opRenombrarPersona (persona_id : Nat) (nuevo_nombre : String)
  | opAsignarEtiqueta (foto_id etiqueta_id : Nat) (manual : Bool)
  | opCrearEtiqueta (texto tipo color : String)
  | opMarcarProcesada (foto_id : Nat)

def execOp (op : Op) (m : DBM) : DBM :=
  match op with
  | .opRegistrarFoto ruta h md => (registrar_foto m ruta h md).1
  | .opGuardarRostros fid lista => (guardar_rostros_detectados m fid lista).1
  | .opRegistrarPersona fid emb area nombre => (registrar_nueva_persona m fid emb area nombre).1
  | .opRenombrarPersona pid nuevo => (renombrar_persona m pid nuevo).1
  | .opAsignarEtiqueta fid eid manual => (asignar_etiqueta m fid eid manual).1
  | .opCrearEtiqueta texto tipo color => (crear_o_recuperar_etiqueta m texto tipo color).1
  | .opMarcarProcesada fid => (marcar_foto_como_procesada m fid).1

/-- States of the store reachable from a fresh deployment by its operations. -/
inductive Reachable : DBM → Prop where
  | init : Reachable initDBM
  | step : ∀ (m : DBM) (op : Op), Reachable m → Reachable (execOp op m)

deriving instance DecidableEq for Except

/-! Concrete fixtures for the executable counterexamples. -/

def area0 : Area := { x := 0, y := 0, w := 10, h := 10 }

def meta0 : Metadatos := { fecha := none, ancho := none, alto := none }

def simCero : Emb → Emb → ℚ := fun _ _ => 0

/-- State after one successful registrar_nueva_persona: persona 1 "Ana" bound
to tag 1 "Ana", face row 1, one FAISS entry. -/
def dbmAna1 : DBM := (registrar_nueva_persona initDBM 1 [1] area0 "Ana").1

/-- C1: in registrar_nueva_persona, when the tag-creation step fails with the
UNIQUE(texto) IntegrityError (tag "Ana" already exists), the rollback issued
inside crear_o_recuperar_etiqueta erases the pending persona insert, yet the
call then commits a face row bound to the erased persona id and returns that
id: the relational write does not roll back as one transaction, and a face
row referencing a nonexistent person is left in the database. -/
theorem registrar_persona_no_atomico :
    (registrar_nueva_persona dbmAna1 1 [2] area0 "Ana").2 = some 2 ∧
    (∃ r ∈ (registrar_nueva_persona dbmAna1 1 [2] area0 "Ana").1.committed.rostros,
        r.persona_id = some 2) ∧
    (∀ p ∈ (registrar_nueva_persona dbmAna1 1 [2] area0 "Ana").1.committed.personas,
        p.id ≠ 2) := by decide

/-- State after registering one photo (id 1). -/
def dbmFoto1 : DBM := (registrar_foto initDBM "fotos/a.jpg" "hash1" meta0).1

/-- A processor constructed for photo id 1. -/
def proc1 : ProcesadorDeFotos :=
  { db := dbmFoto1, id_foto := 1, ruta_foto := "fotos/a.jpg" }

def caraTest : Cara := { embedding := [1, 2], facial_area := area0 }

/-- C3: processing one unmatched face of photo 1 stores the face row with the
hardcoded foto_id 15, not the id of the photo being processed, and attaching
the resolved person's tag raises AttributeError (self.foto_id_actual is never
assigned) instead of tagging the photo. -/
theorem procesando_caras_foto_equivocada :
    proc1.id_foto = 1 ∧
    (procesando_caras simCero proc1 [caraTest]).1.db.current.rostros.length = 1 ∧
    (∀ r ∈ (procesando_caras simCero proc1 [caraTest]).1.db.current.rostros,
        r.foto_id = 15) ∧
    anadir_etiquetas (procesando_caras simCero proc1 [caraTest]).1
        (procesando_caras simCero proc1 [caraTest]).2 = Except.error PyErr.attrErr := by decide

/-- The state procesando_caras itself produces on a fresh deployment: a face
row whose foto_id is 15 while no photo exists at all. -/
def dbmHuerfano : DBM := execOp (Op.opRegistrarPersona 15 [3] area0 "Desconocido") initDBM

/-- C4: referential integrity is not enforced on the manager's connection
(conectar never issues PRAGMA foreign_keys = ON, which is per-connection and
off by default in sqlite3): a reachable state contains a face row whose
foto_id references no photo row. -/
theorem rostro_referencia_foto_inexistente :
    Reachable dbmHuerfano ∧
    (∃ r ∈ dbmHuerfano.current.rostros,
        ∀ f ∈ dbmHuerfano.current.fotos, f.id ≠ r.foto_id) :=
  ⟨Reachable.step initDBM (Op.opRegistrarPersona 15 [3] area0 "Desconocido") Reachable.init,
   by decide⟩

def rostroDeep0 : RostroDeep := { embedding := [1], facial_area := area0, face_confidence := 9/10 }

/-- C2 counterexample: guardar_rostros_detectados does touch the vector index:
a one-element batch adds one entry (and persists it). -/
theorem guardar_rostros_toca_indice :
    (guardar_rostros_detectados initDBM 1 [rostroDeep0]).1.index ≠ initDBM.index ∧
    (guardar_rostros_detectados initDBM 1 [rostroDeep0]).1.index.length = 1 := by decide

/-- C8 counterexample: renaming person 1 to "Ana" — a name that already exists
as the text of a person tag (their own) — returns True and mutates the state
(es_conocida flips), instead of returning false and mutating nothing. -/
theorem renombrar_mismo_nombre_devuelve_true :
    (∃ e ∈ dbmAna1.current.etiquetas, e.texto = "Ana" ∧ e.tipo = "persona") ∧
    (renombrar_persona dbmAna1 1 "Ana").2 = true ∧
    (renombrar_persona dbmAna1 1 "Ana").1 ≠ dbmAna1 := by decide

/-- C6: identificar_persona_por_vector misses exactly when the index is empty,
or the nearest neighbour's cosine distance (1 - similarity) is at least the
default threshold 0.55, or the returned id is the -1 sentinel, or the matched
face row is absent, or its persona_id is NULL; otherwise it returns the
persona_id of the matched face row.  The hypothesis rules out the unreachable
persona_id = 0 (AUTOINCREMENT ids start at 1), which Python truthiness would
also treat as a miss. -/
theorem identificar_caracteriza_resolucion (sim : Emb → Emb → ℚ) (m : DBM) (emb : Emb)
    (hpos : ∀ r ∈ m.current.rostros, r.persona_id ≠ some 0) :
    ((identificar_persona_por_vector sim m emb).1 = none ↔
      m.index = [] ∨
      55/100 ≤ 1 - (faissSearch1 sim m.index emb).2 ∨
      (faissSearch1 sim m.index emb).1 = -1 ∨
      buscarRostroPorId m.current (faissSearch1 sim m.index emb).1 = none ∨
      (∃ r, buscarRostroPorId m.current (faissSearch1 sim m.index emb).1 = some r ∧
        r.persona_id = none)) ∧
    (∀ pid, (identificar_persona_por_vector sim m emb).1 = some pid →
      ∃ r, buscarRostroPorId m.current (faissSearch1 sim m.index emb).1 = some r ∧
        r.persona_id = some pid) := by
  by_cases hidx : m.index = []
  · have hmain : (identificar_persona_por_vector sim m emb).1 = none := by
      simp [identificar_persona_por_vector, hidx]
    refine ⟨?_, ?_⟩
    · rw [hmain]
      exact iff_of_true rfl (Or.inl hidx)
    · intro pid h
      rw [hmain] at h
      exact absurd h (by simp)
  · by_cases hcond : 1 - (faissSearch1 sim m.index emb).2 < 55/100 ∧
        (faissSearch1 sim m.index emb).1 ≠ -1
    · cases hfind : buscarRostroPorId m.current (faissSearch1 sim m.index emb).1 with
      | none =>
        have hmain : (identificar_persona_por_vector sim m emb).1 = none := by
          simp [identificar_persona_por_vector, hidx, hcond, hfind]
        refine ⟨?_, ?_⟩
        · rw [hmain]
          exact iff_of_true rfl (Or.inr (Or.inr (Or.inr (Or.inl rfl))))
        · intro pid h
          rw [hmain] at h
          exact absurd h (by simp)
      | some r =>
        cases hp : r.persona_id with
        | none =>
          have hmain : (identificar_persona_por_vector sim m emb).1 = none := by
            simp [identificar_persona_por_vector, hidx, hcond, hfind, hp]
          refine ⟨?_, ?_⟩
          · rw [hmain]
            exact iff_of_true rfl (Or.inr (Or.inr (Or.inr (Or.inr ⟨r, rfl, hp⟩))))
          · intro pid h
            rw [hmain] at h
            exact absurd h (by simp)
        | some pid =>
          have hr : r ∈ m.current.rostros := List.mem_of_find?_eq_some hfind
          have hpid : pid ≠ 0 := fun h0 => hpos r hr (h0 ▸ hp)
          have hmain : (identificar_persona_por_vector sim m emb).1 = some pid := by
            simp [identificar_persona_por_vector, hidx, hcond, hfind, hp, hpid]
          refine ⟨?_, ?_⟩
          · rw [hmain]
            refine iff_of_false (by simp) ?_
            rintro (h | h | h | h | ⟨r', hr', hp'⟩)
            · exact hidx h
            · exact absurd h (not_le.mpr hcond.1)
            · exact hcond.2 h
            · exact absurd h (by simp)
            · rw [← Option.some_inj.mp hr'] at hp'
              rw [hp] at hp'
              exact absurd hp' (by simp)
          · intro pid' h
            rw [hmain] at h
            exact ⟨r, rfl, hp.trans (congrArg some (Option.some_inj.mp h))⟩
    · have hmain : (identificar_persona_por_vector sim m emb).1 = none := by
        simp only [identificar_persona_por_vector, if_neg hidx, if_neg hcond]
      refine ⟨?_, ?_⟩
      · rw [hmain]
        refine iff_of_true rfl ?_
        rcases Decidable.not_and_iff_or_not.mp hcond with h | h
        · exact Or.inr (Or.inl (not_lt.mp h))
        · exact Or.inr (Or.inr (Or.inl (Decidable.not_not.mp h)))
      · intro pid h
        rw [hmain] at h
        exact absurd h (by simp)

/-- Witness for C6 at a concrete input: a fresh deployment has an empty index,
so resolution is a miss. -/
theorem identificar_caracteriza_resolucion_witness :
    (identificar_persona_por_vector simCero initDBM []).1 = none :=
  (identificar_caracteriza_resolucion simCero initDBM [] (by decide)).1.mpr (Or.inl rfl)

/-- In a list whose prefix contains no match, find? searches the suffix. -/
theorem find?_append_of_not {α} (p : α → Bool) (l1 l2 : List α)
    (h : ∀ a ∈ l1, ¬ p a = true) : (l1 ++ l2).find? p = l2.find? p := by
  induction l1 with
  | nil => rfl
  | cons a resto ih =>
    rw [List.cons_append, List.find?_cons]
    rw [Bool.eq_false_iff.mpr (h a (List.mem_cons_self a resto))]
    exact ih fun b hb => h b (List.mem_cons_of_mem a hb)

/-- C7: registering the same (path, hash, metadata) twice returns the same
photo id both times and creates no duplicate row; the second call's
UNIQUE-violation fallback returns the existing id of the colliding hash.  The
hypothesis states that the photo is new to the table at the first call. -/
theorem registrar_foto_idempotente (m : DBM) (ruta hash_md5 : String) (md md2 : Metadatos)
    (hfresh : ∀ f ∈ m.current.fotos, f.ruta_archivo ≠ ruta ∧ f.hash_md5 ≠ hash_md5) :
    (registrar_foto m ruta hash_md5 md).2 = Except.ok m.current.nextFotoId ∧
    (registrar_foto (registrar_foto m ruta hash_md5 md).1 ruta hash_md5 md2).2 =
      Except.ok m.current.nextFotoId ∧
    (registrar_foto (registrar_foto m ruta hash_md5 md).1 ruta hash_md5 md2).1.current.fotos =
      (registrar_foto m ruta hash_md5 md).1.current.fotos := by
  have hnotex : ¬ ∃ f ∈ m.current.fotos, f.ruta_archivo = ruta ∨ f.hash_md5 = hash_md5 := by
    rintro ⟨f, hf, h1 | h1⟩
    · exact (hfresh f hf).1 h1
    · exact (hfresh f hf).2 h1
  have hA : (registrar_foto m ruta hash_md5 md).2 = Except.ok m.current.nextFotoId := by
    simp [registrar_foto, hnotex]
  have hB : (registrar_foto m ruta hash_md5 md).1.current.fotos =
      m.current.fotos ++ [nuevaFoto m.current.nextFotoId ruta hash_md5 md] := by
    simp [registrar_foto, hnotex]
  have hany2 : (registrar_foto m ruta hash_md5 md).1.current.fotos.any
      (fun f => f.ruta_archivo = ruta ∨ f.hash_md5 = hash_md5) = true := by
    rw [hB, List.any_eq_true]
    exact ⟨nuevaFoto m.current.nextFotoId ruta hash_md5 md,
      List.mem_append_right _ (List.mem_cons_self _ _), by simp [nuevaFoto]⟩
  have hfind2 : (registrar_foto m ruta hash_md5 md).1.current.fotos.find?
      (fun f => f.hash_md5 = hash_md5) =
      some (nuevaFoto m.current.nextFotoId ruta hash_md5 md) := by
    rw [hB, find?_append_of_not]
    · simp [List.find?, nuevaFoto]
    · intro f hf
      simp only [decide_eq_true_eq]
      exact (hfresh f hf).2
  refine ⟨hA, ?_, ?_⟩
  · rw [registrar_foto, hany2, hfind2]
    simp [nuevaFoto]
  · rw [registrar_foto, hany2, hfind2]
    simp

/-- Witness for C7 at a concrete input: registering the same photo twice on a
fresh deployment yields id 1 both times and one row. -/
theorem registrar_foto_idempotente_witness :
    (registrar_foto initDBM "fotos/a.jpg" "hash1" meta0).2 = Except.ok 1 ∧
    (registrar_foto (registrar_foto initDBM "fotos/a.jpg" "hash1" meta0).1
        "fotos/a.jpg" "hash1" meta0).2 = Except.ok 1 :=
  ⟨(registrar_foto_idempotente initDBM "fotos/a.jpg" "hash1" meta0 meta0 (by decide)).1,
   (registrar_foto_idempotente initDBM "fotos/a.jpg" "hash1" meta0 meta0 (by decide)).2.1⟩

/-- C10: registering a photo whose path is already present with a different
stored hash raises: the UNIQUE(ruta_archivo) violation is caught, but the
recovery SELECT looks up only the new hash, finds no row, and the source
subscripts None (TypeError), instead of returning a photo id. -/
theorem registrar_foto_ruta_duplicada_error (m : DBM) (ruta hash2 : String) (md : Metadatos)
    (hruta : ∃ f ∈ m.current.fotos, f.ruta_archivo = ruta)
    (hhash : ∀ f ∈ m.current.fotos, f.hash_md5 ≠ hash2) :
    (registrar_foto m ruta hash2 md).2 = Except.error PyErr.typeErr := by
  have hex : ∃ f ∈ m.current.fotos, f.ruta_archivo = ruta ∨ f.hash_md5 = hash2 := by
    rcases hruta with ⟨f, hf, he⟩
    exact ⟨f, hf, Or.inl he⟩
  have hnone : m.current.fotos.find? (fun f => f.hash_md5 = hash2) = none := by
    rw [List.find?_eq_none]
    intro f hf
    simp only [decide_eq_true_eq]
    exact hhash f hf
  simp [registrar_foto, hex, hnone]

/-- Witness for C10 at a concrete input: photo "fotos/a.jpg" was stored with
hash "hash1"; re-registering the same path with hash "hash2" raises. -/
theorem registrar_foto_ruta_duplicada_error_witness :
    (registrar_foto dbmFoto1 "fotos/a.jpg" "hash2" meta0).2 = Except.error PyErr.typeErr :=
  registrar_foto_ruta_duplicada_error dbmFoto1 "fotos/a.jpg" "hash2" meta0
    (by decide) (by decide)

/-- Characterization of the SQL loop of guardar_rostros_detectados: the
returned ids are the consecutive AUTOINCREMENT ids starting at the current
counter, in input order, and each new row is built positionally from the
detection of the same rank; no other table is touched. -/
theorem insertarRostrosSQL_spec (foto_id : Nat) (lista : List RostroDeep) (db : DB) :
    insertarRostrosSQL foto_id lista db =
      ({ db with
          rostros := db.rostros ++
            ((List.range' db.nextRostroId lista.length).zip lista).map
              (fun par => mkRostroGuardado par.1 foto_id par.2),
          nextRostroId := db.nextRostroId + lista.length },
        List.range' db.nextRostroId lista.length) := by
  induction lista generalizing db with
  | nil =>
    simp [insertarRostrosSQL]
  | cons rostro resto ih =>
    rw [insertarRostrosSQL, ih]
    simp only [List.length_cons, List.range'_succ, List.zip_cons_cons, List.map_cons]
    simp [List.append_assoc]
    omega

/-- C2 amended: guardar_rostros_detectados returns the new face ids in input
order (consecutive AUTOINCREMENT ids), appends one face row per detection in
the same order, and appends one vector-index entry per detection under the
corresponding new id (so for a non-empty batch it does touch the vector
index, contrary to the original claim). -/
theorem guardar_rostros_ids_en_orden (m : DBM) (foto_id : Nat) (lista : List RostroDeep) :
    (guardar_rostros_detectados m foto_id lista).2 =
      List.range' m.current.nextRostroId lista.length ∧
    (guardar_rostros_detectados m foto_id lista).1.current.rostros =
      m.current.rostros ++
        ((List.range' m.current.nextRostroId lista.length).zip lista).map
          (fun par => mkRostroGuardado par.1 foto_id par.2) ∧
    (guardar_rostros_detectados m foto_id lista).1.index =
      m.index ++ (List.range' m.current.nextRostroId lista.length).zip
        (lista.map fun r => r.embedding) := by
  by_cases hnil : lista = []
  · subst hnil
    simp [guardar_rostros_detectados, insertarRostrosSQL]
  · rw [guardar_rostros_detectados, insertarRostrosSQL_spec]
    simp [hnil, guardar_cambios_faiss]

/-- Function that fixes every element of a list maps it to itself. -/
theorem map_id_of_eq {α : Type} (l : List α) (f : α → α) (h : ∀ a ∈ l, f a = a) :
    l.map f = l := by
  induction l with
  | nil => rfl
  | cons a resto ih =>
    rw [List.map_cons, h a (List.mem_cons_self a resto),
      ih fun b hb => h b (List.mem_cons_of_mem a hb)]

/-- Relational invariants maintained by the store's operations: unique tag
texts, unique persona ids and names, ids below the AUTOINCREMENT counter, and
every persona bound to a tag of kind persona whose text is the persona's
name. -/
structure DBInv (db : DB) : Prop where
  textosUnicos : db.etiquetas.Pairwise (fun a b => a.texto ≠ b.texto)
  personaIds : db.personas.Pairwise (fun a b => a.id ≠ b.id)
  personaNombres : db.personas.Pairwise (fun a b => a.nombre ≠ b.nombre)
  personaIdLt : ∀ p ∈ db.personas, p.id < db.nextPersonaId
  consistencia : ∀ p ∈ db.personas, ∃ t, p.etiqueta_id = some t ∧
    ∃ e ∈ db.etiquetas, e.id = t ∧ e.texto = p.nombre ∧ e.tipo = "persona"

/-- Whole-manager invariants: no pending transaction between operations, the
index never larger than the face table, and every face row with a bound
persona covered by an index entry of the same id, in RAM and on disk. -/
structure DBMInv (m : DBM) : Prop where
  comprometido : m.current = m.committed
  dbInv : DBInv m.current
  indiceLe : m.index.length ≤ m.current.rostros.length
  subconjunto : ∀ r ∈ m.current.rostros, r.persona_id.isSome → ∃ e ∈ m.index, e.1 = r.id
  subconjuntoDisco : ∀ r ∈ m.current.rostros, r.persona_id.isSome →
    ∃ e ∈ m.diskIndex, e.1 = r.id

/-- DBInv only depends on etiquetas, personas and the persona counter. -/
theorem DBInv.cambia (db db' : DB) (hinv : DBInv db) (he : db'.etiquetas = db.etiquetas)
    (hp : db'.personas = db.personas) (hn : db'.nextPersonaId = db.nextPersonaId) :
    DBInv db' := by
  refine ⟨?_, ?_, ?_, ?_, ?_⟩
  · rw [he]; exact hinv.textosUnicos
  · rw [hp]; exact hinv.personaIds
  · rw [hp]; exact hinv.personaNombres
  · rw [hp, hn]; exact hinv.personaIdLt
  · rw [hp, he]; exact hinv.consistencia

/-- A committed step that leaves personas, etiquetas, rostros and the persona
counter unchanged preserves the manager invariant. -/
theorem DBMInv.cambiaLigero (m : DBM) (inv : DBMInv m) (db' : DB)
    (he : db'.etiquetas = m.current.etiquetas) (hp : db'.personas = m.current.personas)
    (hn : db'.nextPersonaId = m.current.nextPersonaId)
    (hr : db'.rostros = m.current.rostros) :
    DBMInv { m with current := db', committed := db' } := by
  refine ⟨rfl, DBInv.cambia m.current db' inv.dbInv he hp hn, ?_, ?_, ?_⟩
  · show m.index.length ≤ db'.rostros.length
    rw [hr]
    exact inv.indiceLe
  · intro r hrm hs
    rw [show ({ m with current := db', committed := db' } : DBM).current.rostros =
      db'.rostros from rfl, hr] at hrm
    exact inv.subconjunto r hrm hs
  · intro r hrm hs
    rw [show ({ m with current := db', committed := db' } : DBM).current.rostros =
      db'.rostros from rfl, hr] at hrm
    exact inv.subconjuntoDisco r hrm hs

theorem dbminv_registrar_foto (m : DBM) (inv : DBMInv m) (ruta hash_md5 : String)
    (md : Metadatos) : DBMInv (registrar_foto m ruta hash_md5 md).1 := by
  rw [registrar_foto]
  by_cases hc : m.current.fotos.any (fun f => f.ruta_archivo = ruta ∨ f.hash_md5 = hash_md5) = true
  · rw [if_pos hc]
    cases hf : m.current.fotos.find? (fun f => f.hash_md5 = hash_md5) with
    | none => exact inv
    | some fila => exact inv
  · rw [if_neg hc]
    exact DBMInv.cambiaLigero m inv _ rfl rfl rfl rfl

theorem dbminv_asignar_etiqueta (m : DBM) (inv : DBMInv m) (foto_id etiqueta_id : Nat)
    (manual : Bool) : DBMInv (asignar_etiqueta m foto_id etiqueta_id manual).1 := by
  rw [asignar_etiqueta]
  by_cases hc : m.current.fotos_etiquetas.any
      (fun fe => fe.foto_id = foto_id ∧ fe.etiqueta_id = etiqueta_id) = true
  · simp only [if_pos hc]
    exact DBMInv.cambiaLigero m inv _ rfl rfl rfl rfl
  · simp only [if_neg hc]
    exact DBMInv.cambiaLigero m inv _ rfl rfl rfl rfl

theorem dbminv_marcar_procesada (m : DBM) (inv : DBMInv m) (foto_id : Nat) :
    DBMInv (marcar_foto_como_procesada m foto_id).1 := by
  rw [marcar_foto_como_procesada]
  exact DBMInv.cambiaLigero m inv _ rfl rfl rfl rfl

theorem dbminv_guardar_rostros (m : DBM) (inv : DBMInv m) (fid : Nat)
    (lista : List RostroDeep) : DBMInv (guardar_rostros_detectados m fid lista).1 := by
  by_cases hnil : lista = []
  · subst hnil
    rw [guardar_rostros_detectados, insertarRostrosSQL_spec]
    exact DBMInv.cambiaLigero m inv _ rfl rfl rfl (by simp)
  · rw [guardar_rostros_detectados, insertarRostrosSQL_spec]
    simp only [if_neg hnil, guardar_cambios_faiss]
    refine ⟨rfl, DBInv.cambia m.current _ inv.dbInv rfl rfl rfl, ?_, ?_, ?_⟩
    · show (m.index ++ _).length ≤ (m.current.rostros ++ _).length
      simp only [List.length_append, List.length_zip, List.length_map, Nat.min_self]
      have h1 := inv.indiceLe
      have h2 : (List.range' m.current.nextRostroId lista.length).length = lista.length := by
        simp
      omega
    · intro r hr hs
      rcases List.mem_append.mp hr with hviejo | hnuevo
      · rcases inv.subconjunto r hviejo hs with ⟨e, he, hid⟩
        exact ⟨e, List.mem_append_left _ he, hid⟩
      · rcases List.mem_map.mp hnuevo with ⟨par, _, hpar⟩
        rw [← hpar] at hs
        simp [mkRostroGuardado] at hs
    · intro r hr hs
      rcases List.mem_append.mp hr with hviejo | hnuevo
      · rcases inv.subconjunto r hviejo hs with ⟨e, he, hid⟩
        exact ⟨e, List.mem_append_left _ he, hid⟩
      · rcases List.mem_map.mp hnuevo with ⟨par, _, hpar⟩
        rw [← hpar] at hs
        simp [mkRostroGuardado] at hs

/-- Shape of the IntegrityError branch of crear_o_recuperar_etiqueta: with no
pending transaction the rollback is a no-op, and the id of the first tag with
the requested text is returned. -/
theorem crear_spec_existente (m : DBM) (hc : m.current = m.committed)
    (texto tipo color : String) (hex : ∃ e ∈ m.current.etiquetas, e.texto = texto) :
    (crear_o_recuperar_etiqueta m texto tipo color).1 = m ∧
    ∃ e, m.current.etiquetas.find? (fun x => x.texto = texto) = some e ∧
      (crear_o_recuperar_etiqueta m texto tipo color).2 = some e.id := by
  have hany : m.current.etiquetas.any (fun e => e.texto = texto) = true := by
    rw [List.any_eq_true]
    rcases hex with ⟨e, he, ht⟩
    exact ⟨e, he, by simp [ht]⟩
  have hsome : (m.current.etiquetas.find? (fun x => x.texto = texto)).isSome := by
    rw [List.find?_isSome]
    rcases hex with ⟨e, he, ht⟩
    exact ⟨e, he, by simp [ht]⟩
  obtain ⟨e, hfind⟩ := Option.isSome_iff_exists.mp hsome
  have heq : m.committed.etiquetas.find? (fun x => x.texto = texto) = some e := by
    rw [← hc]
    exact hfind
  have hm : ({ m with current := m.committed } : DBM) = m := by
    obtain ⟨a, b, c, d⟩ := m
    simp only at hc
    simp [hc]
  rw [crear_o_recuperar_etiqueta, if_pos hany]
  simp only [heq]
  exact ⟨hm, e, hfind, rfl⟩

/-- Shape of the success branch of crear_o_recuperar_etiqueta: a fresh tag is
appended under the next AUTOINCREMENT id and committed. -/
theorem crear_spec_nueva (m : DBM) (texto tipo color : String)
    (hnex : ¬ ∃ e ∈ m.current.etiquetas, e.texto = texto) :
    (crear_o_recuperar_etiqueta m texto tipo color).2 = some m.current.nextEtiquetaId ∧
    (crear_o_recuperar_etiqueta m texto tipo color).1.current =
      { m.current with
          etiquetas := m.current.etiquetas ++
            [{ id := m.current.nextEtiquetaId, texto := texto, tipo := tipo, color := color }],
          nextEtiquetaId := m.current.nextEtiquetaId + 1 } ∧
    (crear_o_recuperar_etiqueta m texto tipo color).1.committed =
      (crear_o_recuperar_etiqueta m texto tipo color).1.current ∧
    (crear_o_recuperar_etiqueta m texto tipo color).1.index = m.index ∧
    (crear_o_recuperar_etiqueta m texto tipo color).1.diskIndex = m.diskIndex := by
  simp only [crear_o_recuperar_etiqueta, hnex]
  simp [hnex]

theorem dbminv_crear_etiqueta (m : DBM) (inv : DBMInv m) (texto tipo color : String) :
    DBMInv (crear_o_recuperar_etiqueta m texto tipo color).1 := by
  by_cases hex : ∃ e ∈ m.current.etiquetas, e.texto = texto
  · rw [(crear_spec_existente m inv.comprometido texto tipo color hex).1]
    exact inv
  · obtain ⟨-, hcur, hcom, hidx, hdisk⟩ := crear_spec_nueva m texto tipo color hex
    have hne : ∀ e ∈ m.current.etiquetas, e.texto ≠ texto := by
      intro e he ht
      exact hex ⟨e, he, ht⟩
    refine ⟨?_, ?_, ?_, ?_, ?_⟩
    · rw [hcom]
    · rw [hcur]
      refine ⟨?_, inv.dbInv.personaIds, inv.dbInv.personaNombres, inv.dbInv.personaIdLt, ?_⟩
      · rw [List.pairwise_append]
        refine ⟨inv.dbInv.textosUnicos, List.pairwise_singleton _ _, ?_⟩
        intro a ha b hb
        rw [List.mem_singleton.mp hb]
        exact hne a ha
      · intro p hp
        rcases inv.dbInv.consistencia p hp with ⟨t, ht, e, he, hid, htx, htp⟩
        exact ⟨t, ht, e, List.mem_append_left _ he, hid, htx, htp⟩
    · rw [hidx, hcur]
      exact inv.indiceLe
    · intro r hr hs
      rw [hidx]
      rw [hcur] at hr
      exact inv.subconjunto r hr hs
    · intro r hr hs
      rw [hdisk]
      rw [hcur] at hr
      exact inv.subconjuntoDisco r hr hs

/-- With no pending transaction, a rollback leaves the manager unchanged. -/
theorem rollback_noop (m : DBM) (hc : m.current = m.committed) :
    ({ m with current := m.committed } : DBM) = m := by
  obtain ⟨a, b, c, d⟩ := m
  simp only at hc
  simp [hc]

/-- Shape of the IntegrityError branch of crear_o_recuperar_etiqueta without
assuming the transaction is clean: the rollback resets current to committed
and the id found in the committed snapshot is returned. -/
theorem crear_spec_existente_general (m : DBM) (texto tipo color : String)
    (hex : ∃ e ∈ m.current.etiquetas, e.texto = texto) (e : Etiqueta)
    (hfind : m.committed.etiquetas.find? (fun x => x.texto = texto) = some e) :
    crear_o_recuperar_etiqueta m texto tipo color =
      ({ m with current := m.committed }, some e.id) := by
  have hany : m.current.etiquetas.any (fun x => x.texto = texto) = true := by
    rw [List.any_eq_true]
    rcases hex with ⟨e1, he1, ht1⟩
    exact ⟨e1, he1, by simp [ht1]⟩
  rw [crear_o_recuperar_etiqueta, if_pos hany]
  simp only [hfind]

/-- Shape of registrar_nueva_persona when a tag with the (final) name already
exists: the nested rollback discards the pending persona insert, the UPDATE
matches no row, and only the face row (bound to the never-committed persona
id) and its vector entry are added. -/
theorem registrar_spec_existente (m : DBM) (hc : m.current = m.committed)
    (hlt : ∀ p ∈ m.current.personas, p.id < m.current.nextPersonaId)
    (foto_id : Nat) (embedding : Emb) (area : Area) (nombre nf : String)
    (hnf : nf = if nombre = "" then "Desconocido " ++ toString m.current.nextPersonaId
      else nombre)
    (hex : ∃ e ∈ m.current.etiquetas, e.texto = nf) :
    (registrar_nueva_persona m foto_id embedding area nombre).2 =
      some m.current.nextPersonaId ∧
    (registrar_nueva_persona m foto_id embedding area nombre).1.current =
      { m.current with
          rostros := m.current.rostros ++
            [nuevoRostroRegistrado m.current.nextRostroId foto_id m.current.nextPersonaId
              embedding area],
          nextRostroId := m.current.nextRostroId + 1 } ∧
    (registrar_nueva_persona m foto_id embedding area nombre).1.committed =
      (registrar_nueva_persona m foto_id embedding area nombre).1.current ∧
    (registrar_nueva_persona m foto_id embedding area nombre).1.index =
      m.index ++ [(m.current.nextRostroId, embedding)] ∧
    (registrar_nueva_persona m foto_id embedding area nombre).1.diskIndex =
      (registrar_nueva_persona m foto_id embedding area nombre).1.index := by
  have hsome : (m.committed.etiquetas.find? (fun x => x.texto = nf)).isSome := by
    rw [List.find?_isSome]
    rcases hex with ⟨e, he, ht⟩
    rw [hc] at he
    exact ⟨e, he, by simp [ht]⟩
  obtain ⟨e0, hfind⟩ := Option.isSome_iff_exists.mp hsome
  have hcrear := crear_spec_existente_general
    ({ m with current := { m.current with
        personas := m.current.personas ++
          [{ id := m.current.nextPersonaId, nombre := nombre, es_conocida := false,
             etiqueta_id := none }],
        nextPersonaId := m.current.nextPersonaId + 1 } })
    nf "persona" "#3498db" hex e0 hfind
  have hmap : m.committed.personas.map
      (fun p => if p.id = m.current.nextPersonaId then
        { p with nombre := nf, etiqueta_id := some e0.id } else p) =
      m.committed.personas := by
    apply map_id_of_eq
    intro p hp
    rw [← hc] at hp
    rw [if_neg (Nat.ne_of_lt (hlt p hp))]
  simp only [registrar_nueva_persona, ← hnf]
  rw [hcrear]
  simp only [hmap, guardar_cambios_faiss]
  rw [hc]
  refine ⟨?_, ?_, ?_, ?_, ?_⟩ <;> first | rfl | trivial

/-- Shape of registrar_nueva_persona when no tag with the (final) name exists:
persona, tag, binding, face row and vector entry are all created, with the
intermediate commit of the tag step folded into the final state. -/
theorem registrar_spec_nueva (m : DBM)
    (hlt : ∀ p ∈ m.current.personas, p.id < m.current.nextPersonaId)
    (foto_id : Nat) (embedding : Emb) (area : Area) (nombre nf : String)
    (hnf : nf = if nombre = "" then "Desconocido " ++ toString m.current.nextPersonaId
      else nombre)
    (hnex : ¬ ∃ e ∈ m.current.etiquetas, e.texto = nf) :
    (registrar_nueva_persona m foto_id embedding area nombre).2 =
      some m.current.nextPersonaId ∧
    (registrar_nueva_persona m foto_id embedding area nombre).1.current =
      { m.current with
          personas := m.current.personas ++
            [{ id := m.current.nextPersonaId, nombre := nf, es_conocida := false,
               etiqueta_id := some m.current.nextEtiquetaId }],
          nextPersonaId := m.current.nextPersonaId + 1,
          etiquetas := m.current.etiquetas ++
            [{ id := m.current.nextEtiquetaId, texto := nf, tipo := "persona",
               color := "#3498db" }],
          nextEtiquetaId := m.current.nextEtiquetaId + 1,
          rostros := m.current.rostros ++
            [nuevoRostroRegistrado m.current.nextRostroId foto_id m.current.nextPersonaId
              embedding area],
          nextRostroId := m.current.nextRostroId + 1 } ∧
    (registrar_nueva_persona m foto_id embedding area nombre).1.committed =
      (registrar_nueva_persona m foto_id embedding area nombre).1.current ∧
    (registrar_nueva_persona m foto_id embedding area nombre).1.index =
      m.index ++ [(m.current.nextRostroId, embedding)] ∧
    (registrar_nueva_persona m foto_id embedding area nombre).1.diskIndex =
      (registrar_nueva_persona m foto_id embedding area nombre).1.index := by
  obtain ⟨hc2, hccur, hccom, hcidx, hcdisk⟩ := crear_spec_nueva
    ({ m with current := { m.current with
        personas := m.current.personas ++
          [{ id := m.current.nextPersonaId, nombre := nombre, es_conocida := false,
             etiqueta_id := none }],
        nextPersonaId := m.current.nextPersonaId + 1 } })
    nf "persona" "#3498db" hnex
  have hmap : m.current.personas.map
      (fun p => if p.id = m.current.nextPersonaId then
        { p with nombre := nf, etiqueta_id := some m.current.nextEtiquetaId } else p) =
      m.current.personas := by
    apply map_id_of_eq
    intro p hp
    rw [if_neg (Nat.ne_of_lt (hlt p hp))]
  simp only [registrar_nueva_persona, ← hnf]
  simp only [hc2, hccur, hcidx, guardar_cambios_faiss]
  simp only [List.map_append, List.map_cons, List.map_nil, hmap]
  simp

theorem dbminv_registrar_persona (m : DBM) (inv : DBMInv m) (foto_id : Nat)
    (embedding : Emb) (area : Area) (nombre : String) :
    DBMInv (registrar_nueva_persona m foto_id embedding area nombre).1 := by
  by_cases hex : ∃ e ∈ m.current.etiquetas,
      e.texto = (if nombre = "" then "Desconocido " ++ toString m.current.nextPersonaId
        else nombre)
  · obtain ⟨h2, hcur, hcom, hidx, hdisk⟩ := registrar_spec_existente m inv.comprometido
      inv.dbInv.personaIdLt foto_id embedding area nombre _ rfl hex
    refine ⟨?_, ?_, ?_, ?_, ?_⟩
    · rw [hcom]
    · rw [hcur]
      exact DBInv.cambia m.current _ inv.dbInv rfl rfl rfl
    · rw [hidx, hcur]
      show _ ≤ (m.current.rostros ++ _).length
      simp only [List.length_append, List.length_cons, List.length_nil]
      have := inv.indiceLe
      omega
    · intro r hr hs
      rw [hidx]
      rw [hcur] at hr
      rcases List.mem_append.mp hr with hviejo | hnuevo
      · rcases inv.subconjunto r hviejo hs with ⟨e, he, hid⟩
        exact ⟨e, List.mem_append_left _ he, hid⟩
      · rw [List.mem_singleton.mp hnuevo]
        exact ⟨(m.current.nextRostroId, embedding),
          List.mem_append_right _ (List.mem_singleton_self _), rfl⟩
    · intro r hr hs
      rw [hdisk, hidx]
      rw [hcur] at hr
      rcases List.mem_append.mp hr with hviejo | hnuevo
      · rcases inv.subconjunto r hviejo hs with ⟨e, he, hid⟩
        exact ⟨e, List.mem_append_left _ he, hid⟩
      · rw [List.mem_singleton.mp hnuevo]
        exact ⟨(m.current.nextRostroId, embedding),
          List.mem_append_right _ (List.mem_singleton_self _), rfl⟩
  · obtain ⟨h2, hcur, hcom, hidx, hdisk⟩ := registrar_spec_nueva m
      inv.dbInv.personaIdLt foto_id embedding area nombre _ rfl hex
    have hne : ∀ e ∈ m.current.etiquetas,
        e.texto ≠ (if nombre = "" then "Desconocido " ++ toString m.current.nextPersonaId
          else nombre) := by
      intro e he ht
      exact hex ⟨e, he, ht⟩
    have hnombres : ∀ q ∈ m.current.personas,
        q.nombre ≠ (if nombre = "" then "Desconocido " ++ toString m.current.nextPersonaId
          else nombre) := by
      intro q hq ht
      rcases inv.dbInv.consistencia q hq with ⟨t, _, e, he, _, htx, _⟩
      exact hne e he (htx.trans ht)
    refine ⟨?_, ?_, ?_, ?_, ?_⟩
    · rw [hcom]
    · rw [hcur]
      refine ⟨?_, ?_, ?_, ?_, ?_⟩
      · rw [List.pairwise_append]
        refine ⟨inv.dbInv.textosUnicos, List.pairwise_singleton _ _, ?_⟩
        intro a ha b hb
        rw [List.mem_singleton.mp hb]
        exact hne a ha
      · rw [List.pairwise_append]
        refine ⟨inv.dbInv.personaIds, List.pairwise_singleton _ _, ?_⟩
        intro a ha b hb
        rw [List.mem_singleton.mp hb]
        exact Nat.ne_of_lt (inv.dbInv.personaIdLt a ha)
      · rw [List.pairwise_append]
        refine ⟨inv.dbInv.personaNombres, List.pairwise_singleton _ _, ?_⟩
        intro a ha b hb
        rw [List.mem_singleton.mp hb]
        exact hnombres a ha
      · intro p hp
        rcases List.mem_append.mp hp with hviejo | hnuevo
        · exact Nat.lt_succ_of_lt (inv.dbInv.personaIdLt p hviejo)
        · rw [List.mem_singleton.mp hnuevo]
          exact Nat.lt_succ_self _
      · intro p hp
        rcases List.mem_append.mp hp with hviejo | hnuevo
        · rcases inv.dbInv.consistencia p hviejo with ⟨t, ht, e, he, hid, htx, htp⟩
          exact ⟨t, ht, e, List.mem_append_left _ he, hid, htx, htp⟩
        · rw [List.mem_singleton.mp hnuevo]
          exact ⟨m.current.nextEtiquetaId, rfl,
            { id := m.current.nextEtiquetaId,
              texto := (if nombre = "" then
                "Desconocido " ++ toString m.current.nextPersonaId else nombre),
              tipo := "persona", color := "#3498db" },
            List.mem_append_right _ (List.mem_singleton_self _), rfl, rfl, rfl⟩
    · rw [hidx, hcur]
      show _ ≤ (m.current.rostros ++ _).length
      simp only [List.length_append, List.length_cons, List.length_nil]
      have := inv.indiceLe
      omega
    · intro r hr hs
      rw [hidx]
      rw [hcur] at hr
      rcases List.mem_append.mp hr with hviejo | hnuevo
      · rcases inv.subconjunto r hviejo hs with ⟨e, he, hid⟩
        exact ⟨e, List.mem_append_left _ he, hid⟩
      · rw [List.mem_singleton.mp hnuevo]
        exact ⟨(m.current.nextRostroId, embedding),
          List.mem_append_right _ (List.mem_singleton_self _), rfl⟩
    · intro r hr hs
      rw [hdisk, hidx]
      rw [hcur] at hr
      rcases List.mem_append.mp hr with hviejo | hnuevo
      · rcases inv.subconjunto r hviejo hs with ⟨e, he, hid⟩
        exact ⟨e, List.mem_append_left _ he, hid⟩
      · rw [List.mem_singleton.mp hnuevo]
        exact ⟨(m.current.nextRostroId, embedding),
          List.mem_append_right _ (List.mem_singleton_self _), rfl⟩

/-- renombrar_persona with an unknown persona id changes nothing. -/
theorem renombrar_spec_ausente (m : DBM) (pid : Nat) (nuevo : String)
    (hfind : m.current.personas.find? (fun p => p.id = pid) = none) :
    renombrar_persona m pid nuevo = (m, false) := by
  rw [renombrar_persona, hfind]

/-- renombrar_persona rolls back and reports failure when the tag UPDATE
violates UNIQUE(texto). -/
theorem renombrar_spec_conflicto (m : DBM) (pid : Nat) (nuevo : String) (res : Persona)
    (hfind : m.current.personas.find? (fun p => p.id = pid) = some res)
    (hconf : updateEtiquetasTexto m.current.etiquetas res.nombre nuevo = none) :
    renombrar_persona m pid nuevo = ({ m with current := m.committed }, false) := by
  rw [renombrar_persona, hfind]
  simp only [hconf]

/-- Shape of a successful renombrar_persona: the persona row is renamed and
confirmed, the matched person-tags are retexted, and the result is committed. -/
theorem renombrar_spec_exito (m : DBM) (pid : Nat) (nuevo : String) (res : Persona)
    (ets : List Etiqueta)
    (hfind : m.current.personas.find? (fun p => p.id = pid) = some res)
    (hupd : updateEtiquetasTexto m.current.etiquetas res.nombre nuevo = some ets) :
    (renombrar_persona m pid nuevo).2 = true ∧
    (renombrar_persona m pid nuevo).1.current =
      { m.current with
          personas := m.current.personas.map fun p =>
            if p.id = pid then { p with nombre := nuevo, es_conocida := true } else p,
          etiquetas := ets } ∧
    (renombrar_persona m pid nuevo).1.committed = (renombrar_persona m pid nuevo).1.current ∧
    (renombrar_persona m pid nuevo).1.index = m.index ∧
    (renombrar_persona m pid nuevo).1.diskIndex = m.diskIndex := by
  rw [renombrar_persona, hfind]
  simp only [hupd]
  refine ⟨?_, ?_, ?_, ?_, ?_⟩ <;> first | rfl | trivial

/-- A successful tag UPDATE applies the retexting map and certifies that the
conflict condition was false. -/
theorem updateEtiquetas_exito (ets : List Etiqueta) (a n : String) (l : List Etiqueta)
    (h : updateEtiquetasTexto ets a n = some l) :
    l = ets.map (fun e => if e.texto = a ∧ e.tipo = "persona" then { e with texto := n }
      else e) ∧
    ¬((∃ e ∈ ets, e.texto = a ∧ e.tipo = "persona") ∧
      (∃ e ∈ ets, e.texto = n ∧ ¬(e.texto = a ∧ e.tipo = "persona"))) := by
  rw [updateEtiquetasTexto] at h
  by_cases hc : (ets.any fun e => e.texto = a ∧ e.tipo = "persona") = true ∧
      (ets.any fun e => e.texto = n ∧ ¬(e.texto = a ∧ e.tipo = "persona")) = true
  · rw [if_pos hc] at h
    exact absurd h (by simp)
  · rw [if_neg hc] at h
    refine ⟨(Option.some_inj.mp h).symm, ?_⟩
    intro hcontra
    apply hc
    constructor
    · rw [List.any_eq_true]
      rcases hcontra.1 with ⟨e, he, hp⟩
      exact ⟨e, he, by simp [hp]⟩
    · rw [List.any_eq_true]
      rcases hcontra.2 with ⟨e, he, hp⟩
      refine ⟨e, he, ?_⟩
      simp only [decide_eq_true_eq]
      exact hp

theorem dbminv_renombrar (m : DBM) (inv : DBMInv m) (pid : Nat) (nuevo : String) :
    DBMInv (renombrar_persona m pid nuevo).1 := by
  cases hfind : m.current.personas.find? (fun p => p.id = pid) with
  | none =>
    rw [renombrar_spec_ausente m pid nuevo hfind]
    exact inv
  | some res =>
    cases hupd : updateEtiquetasTexto m.current.etiquetas res.nombre nuevo with
    | none =>
      rw [renombrar_spec_conflicto m pid nuevo res hfind hupd,
        rollback_noop m inv.comprometido]
      exact inv
    | some ets =>
      obtain ⟨h2, hcur, hcom, hidx, hdisk⟩ := renombrar_spec_exito m pid nuevo res ets
        hfind hupd
      obtain ⟨hl, hnoconf⟩ := updateEtiquetas_exito m.current.etiquetas res.nombre nuevo
        ets hupd
      have hres_mem : res ∈ m.current.personas := List.mem_of_find?_eq_some hfind
      have hres_id : res.id = pid := by
        have h1 := List.find?_some hfind
        simpa using h1
      have hmatched : ∃ e ∈ m.current.etiquetas, e.texto = res.nombre ∧
          e.tipo = "persona" := by
        rcases inv.dbInv.consistencia res hres_mem with ⟨t, _, e, he, _, htx, htp⟩
        exact ⟨e, he, htx, htp⟩
      have hK : ∀ e ∈ m.current.etiquetas, e.texto = nuevo →
          (e.texto = res.nombre ∧ e.tipo = "persona") := by
        intro e he ht
        by_contra hnm
        exact hnoconf ⟨hmatched, e, he, ht, hnm⟩
      have hqres : ∀ q ∈ m.current.personas, q.id = pid → q = res := by
        intro q hq hqid
        by_contra hne
        exact inv.dbInv.personaIds.forall (fun a b h => h.symm) hq hres_mem hne
          (hqid.trans hres_id.symm)
      have hnomres : ∀ q ∈ m.current.personas, q ≠ res → q.nombre ≠ res.nombre := by
        intro q hq hne
        exact inv.dbInv.personaNombres.forall (fun a b h => h.symm) hq hres_mem hne
      have hidP : ∀ p : Persona,
          ((if p.id = pid then { p with nombre := nuevo, es_conocida := true } else p) :
            Persona).id = p.id := by
        intro p
        by_cases hp : p.id = pid <;> simp [hp]
      refine ⟨?_, ?_, ?_, ?_, ?_⟩
      · rw [hcom]
      · rw [hcur]
        refine ⟨?_, ?_, ?_, ?_, ?_⟩
        · show ets.Pairwise _
          rw [hl]
          rw [List.pairwise_map]
          apply inv.dbInv.textosUnicos.imp_of_mem
          intro a b ha hb hne
          by_cases ma : a.texto = res.nombre ∧ a.tipo = "persona" <;>
            by_cases mb : b.texto = res.nombre ∧ b.tipo = "persona"
          · exact absurd (ma.1.trans mb.1.symm) hne
          · simp only [if_pos ma, if_neg mb]
            intro heq
            exact mb (hK b hb heq.symm)
          · simp only [if_neg ma, if_pos mb]
            intro heq
            exact ma (hK a ha heq)
          · simp only [if_neg ma, if_neg mb]
            exact hne
        · show (m.current.personas.map _).Pairwise _
          rw [List.pairwise_map]
          apply inv.dbInv.personaIds.imp
          intro a b h
          rw [hidP a, hidP b]
          exact h
        · show (m.current.personas.map _).Pairwise _
          rw [List.pairwise_map]
          apply (inv.dbInv.personaIds.and inv.dbInv.personaNombres).imp_of_mem
          intro a b ha hb hab
          by_cases pa : a.id = pid <;> by_cases pb : b.id = pid
          · exact absurd (pa.trans pb.symm) hab.1
          · simp only [if_pos pa, if_neg pb]
            intro heq
            rcases inv.dbInv.consistencia b hb with ⟨t, _, eb, heb, _, htxb, _⟩
            have hbn : b.nombre = res.nombre :=
              htxb.symm.trans (hK eb heb (htxb.trans heq.symm)).1
            have hbne : b ≠ res := by
              intro hbe
              exact pb (hbe ▸ hres_id ▸ rfl)
            exact hnomres b hb hbne hbn
          · simp only [if_neg pa, if_pos pb]
            intro heq
            rcases inv.dbInv.consistencia a ha with ⟨t, _, ea, hea, _, htxa, _⟩
            have han : a.nombre = res.nombre :=
              htxa.symm.trans (hK ea hea (htxa.trans heq)).1
            have hane : a ≠ res := by
              intro hae
              exact pa (hae ▸ hres_id ▸ rfl)
            exact hnomres a ha hane han
          · simp only [if_neg pa, if_neg pb]
            exact hab.2
        · intro p' hp'
          rcases List.mem_map.mp hp' with ⟨q, hq, hform⟩
          show p'.id < m.current.nextPersonaId
          rw [← hform, hidP q]
          exact inv.dbInv.personaIdLt q hq
        · intro p' hp'
          rcases List.mem_map.mp hp' with ⟨q, hq, hform⟩
          by_cases pq : q.id = pid
          · have hqr : q = res := hqres q hq pq
            subst hqr
            rcases inv.dbInv.consistencia q hq with ⟨t, ht, e, he, hid, htx, htp⟩
            refine ⟨t, ?_, ?_⟩
            · rw [← hform]
              simp only [if_pos pq]
              exact ht
            · refine ⟨{ e with texto := nuevo }, ?_, hid, ?_, htp⟩
              · rw [hl]
                have : ({ e with texto := nuevo } : Etiqueta) =
                    (if e.texto = q.nombre ∧ e.tipo = "persona" then
                      { e with texto := nuevo } else e) := by
                  rw [if_pos ⟨htx, htp⟩]
                rw [this]
                exact List.mem_map_of_mem _ he
              · show nuevo = p'.nombre
                rw [← hform]
                simp only [if_pos pq]
          · have hqe : p' = q := by
              rw [← hform, if_neg pq]
            rw [hqe]
            rcases inv.dbInv.consistencia q hq with ⟨t, ht, e, he, hid, htx, htp⟩
            refine ⟨t, ht, e, ?_, hid, htx, htp⟩
            rw [hl]
            have hnm : ¬(e.texto = res.nombre ∧ e.tipo = "persona") := by
              intro hcon
              have hqner : q ≠ res := by
                intro hqe2
                exact pq (hqe2 ▸ hres_id ▸ rfl)
              exact hnomres q hq hqner (htx.symm.trans hcon.1)
            have : e = (if e.texto = res.nombre ∧ e.tipo = "persona" then
                { e with texto := nuevo } else e) := by
              rw [if_neg hnm]
            rw [this]
            exact List.mem_map_of_mem _ he
      · rw [hidx, hcur]
        exact inv.indiceLe
      · intro r hr hs
        rw [hidx]
        rw [hcur] at hr
        exact inv.subconjunto r hr hs
      · intro r hr hs
        rw [hdisk]
        rw [hcur] at hr
        exact inv.subconjuntoDisco r hr hs

theorem dbminv_init : DBMInv initDBM := by
  refine ⟨rfl, ⟨?_, ?_, ?_, ?_, ?_⟩, ?_, ?_, ?_⟩ <;> simp [initDBM, initDB]

/-- Every state reachable by the store's operations satisfies the invariant. -/
theorem reachable_dbminv (m : DBM) (h : Reachable m) : DBMInv m := by
  induction h with
  | init => exact dbminv_init
  | step m op _ ih =>
    cases op with
    | opRegistrarFoto ruta hash_md5 md => exact dbminv_registrar_foto m ih ruta hash_md5 md
    | opGuardarRostros fid lista => exact dbminv_guardar_rostros m ih fid lista
    | opRegistrarPersona fid emb area nombre =>
      exact dbminv_registrar_persona m ih fid emb area nombre
    | opRenombrarPersona pid nuevo => exact dbminv_renombrar m ih pid nuevo
    | opAsignarEtiqueta fid eid manual => exact dbminv_asignar_etiqueta m ih fid eid manual
    | opCrearEtiqueta texto tipo color => exact dbminv_crear_etiqueta m ih texto tipo color
    | opMarcarProcesada fid => exact dbminv_marcar_procesada m ih fid

/-- The tag UPDATE of renombrar_persona fails when some row matches and a
different row already holds the new text. -/
theorem updateEtiquetas_conflicto (ets : List Etiqueta) (a n : String)
    (hmatched : ∃ e ∈ ets, e.texto = a ∧ e.tipo = "persona")
    (hother : ∃ e ∈ ets, e.texto = n ∧ ¬(e.texto = a ∧ e.tipo = "persona")) :
    updateEtiquetasTexto ets a n = none := by
  have hcond : (ets.any fun e => e.texto = a ∧ e.tipo = "persona") = true ∧
      (ets.any fun e => e.texto = n ∧ ¬(e.texto = a ∧ e.tipo = "persona")) = true := by
    constructor
    · rw [List.any_eq_true]
      rcases hmatched with ⟨e, he, hp⟩
      exact ⟨e, he, by simp [hp]⟩
    · rw [List.any_eq_true]
      rcases hother with ⟨e, he, hp⟩
      refine ⟨e, he, ?_⟩
      simp only [decide_eq_true_eq]
      exact hp
  rw [updateEtiquetasTexto, if_pos hcond]

/-- C9: in every reachable state the vector index has no more entries than the
face table, and every face row with a non-null persona_id is covered by an
entry of the same id in the in-memory index and in the persisted index. -/
theorem indice_subconjunto_rostros (m : DBM) (h : Reachable m) :
    m.index.length ≤ m.current.rostros.length ∧
    ∀ r ∈ m.current.rostros, r.persona_id.isSome →
      (∃ e ∈ m.index, e.1 = r.id) ∧ (∃ e ∈ m.diskIndex, e.1 = r.id) := by
  have inv := reachable_dbminv m h
  exact ⟨inv.indiceLe,
    fun r hr hs => ⟨inv.subconjunto r hr hs, inv.subconjuntoDisco r hr hs⟩⟩

/-- Witness for C9 at a concrete reachable state: after one full person
registration, the single face row is covered by the persisted index entry. -/
theorem indice_subconjunto_rostros_witness :
    dbmAna1.index.length ≤ dbmAna1.current.rostros.length ∧
    ∀ r ∈ dbmAna1.current.rostros, r.persona_id.isSome →
      (∃ e ∈ dbmAna1.index, e.1 = r.id) ∧ (∃ e ∈ dbmAna1.diskIndex, e.1 = r.id) :=
  indice_subconjunto_rostros dbmAna1
    (Reachable.step initDBM (Op.opRegistrarPersona 1 [1] area0 "Ana") Reachable.init)

/-- C5: in every reachable state, a persona whose etiqueta_id is set points at
a tag whose text equals the persona's name; a rename either fails changing
nothing or succeeds renaming the persona, and afterwards the name-tag
consistency holds again for every persona (the renamed one and all others). -/
theorem persona_etiqueta_consistencia (m : DBM) (h : Reachable m) :
    (∀ p ∈ m.current.personas, ∀ t, p.etiqueta_id = some t →
      ∃ e ∈ m.current.etiquetas, e.id = t ∧ e.texto = p.nombre) ∧
    (∀ pid nuevo,
      ((renombrar_persona m pid nuevo).2 = false → (renombrar_persona m pid nuevo).1 = m) ∧
      (∀ p ∈ (renombrar_persona m pid nuevo).1.current.personas,
        p.id = pid → (renombrar_persona m pid nuevo).2 = true → p.nombre = nuevo) ∧
      (∀ p ∈ (renombrar_persona m pid nuevo).1.current.personas, ∀ t,
        p.etiqueta_id = some t →
        ∃ e ∈ (renombrar_persona m pid nuevo).1.current.etiquetas,
          e.id = t ∧ e.texto = p.nombre)) := by
  have inv := reachable_dbminv m h
  constructor
  · intro p hp t ht
    rcases inv.dbInv.consistencia p hp with ⟨t', ht', e, he, hid, htx, _⟩
    rw [ht] at ht'
    rw [Option.some_inj.mp ht'.symm] at hid
    exact ⟨e, he, hid, htx⟩
  · intro pid nuevo
    have hpost : DBMInv (renombrar_persona m pid nuevo).1 :=
      reachable_dbminv _ (Reachable.step m (Op.opRenombrarPersona pid nuevo) h)
    refine ⟨?_, ?_, ?_⟩
    · intro hfalse
      cases hfind : m.current.personas.find? (fun p => p.id = pid) with
      | none => rw [renombrar_spec_ausente m pid nuevo hfind]
      | some res =>
        cases hupd : updateEtiquetasTexto m.current.etiquetas res.nombre nuevo with
        | none =>
          rw [renombrar_spec_conflicto m pid nuevo res hfind hupd,
            rollback_noop m inv.comprometido]
        | some ets =>
          have h2 := (renombrar_spec_exito m pid nuevo res ets hfind hupd).1
          rw [h2] at hfalse
          exact absurd hfalse (by simp)
    · intro p hp hpid htrue
      cases hfind : m.current.personas.find? (fun q => q.id = pid) with
      | none =>
        have := renombrar_spec_ausente m pid nuevo hfind
        rw [this] at htrue
        exact absurd htrue (by simp)
      | some res =>
        cases hupd : updateEtiquetasTexto m.current.etiquetas res.nombre nuevo with
        | none =>
          have := renombrar_spec_conflicto m pid nuevo res hfind hupd
          rw [this] at htrue
          exact absurd htrue (by simp)
        | some ets =>
          obtain ⟨h2, hcur, -, -, -⟩ := renombrar_spec_exito m pid nuevo res ets hfind hupd
          rw [hcur] at hp
          rcases List.mem_map.mp hp with ⟨q, hq, hform⟩
          by_cases pq : q.id = pid
          · rw [← hform]
            simp [pq]
          · rw [← hform] at hpid
            rw [if_neg pq] at hpid
            exact absurd hpid pq
    · intro p hp t ht
      rcases hpost.dbInv.consistencia p hp with ⟨t', ht', e, he, hid, htx, _⟩
      rw [ht] at ht'
      rw [Option.some_inj.mp ht'.symm] at hid
      exact ⟨e, he, hid, htx⟩

/-- Witness for C5 at a concrete reachable state: one registered person. -/
theorem persona_etiqueta_consistencia_witness :
    (∀ p ∈ dbmAna1.current.personas, ∀ t, p.etiqueta_id = some t →
      ∃ e ∈ dbmAna1.current.etiquetas, e.id = t ∧ e.texto = p.nombre) ∧
    (∀ pid nuevo,
      ((renombrar_persona dbmAna1 pid nuevo).2 = false →
        (renombrar_persona dbmAna1 pid nuevo).1 = dbmAna1) ∧
      (∀ p ∈ (renombrar_persona dbmAna1 pid nuevo).1.current.personas,
        p.id = pid → (renombrar_persona dbmAna1 pid nuevo).2 = true → p.nombre = nuevo) ∧
      (∀ p ∈ (renombrar_persona dbmAna1 pid nuevo).1.current.personas, ∀ t,
        p.etiqueta_id = some t →
        ∃ e ∈ (renombrar_persona dbmAna1 pid nuevo).1.current.etiquetas,
          e.id = t ∧ e.texto = p.nombre)) :=
  persona_etiqueta_consistencia dbmAna1
    (Reachable.step initDBM (Op.opRegistrarPersona 1 [1] area0 "Ana") Reachable.init)

/-- Reachable state with two persons: 1 "Ana" (tag 1) and 2 "Bob" (tag 2). -/
def dbmDos : DBM :=
  execOp (Op.opRegistrarPersona 1 [2] area0 "Bob")
    (execOp (Op.opRegistrarPersona 1 [1] area0 "Ana") initDBM)

/-- C8 amended: in a reachable state, renaming an existing persona to a name
that some tag already holds and that differs from the persona's current name
returns False and mutates nothing; renaming a persona to their own current
name, by contrast, succeeds (see the counterexample). -/
theorem renombrar_conflicto_sin_mutacion (m : DBM) (h : Reachable m) (pid : Nat)
    (nuevo : String) (res : Persona)
    (hfind : m.current.personas.find? (fun p => p.id = pid) = some res)
    (hconf : ∃ e ∈ m.current.etiquetas, e.texto = nuevo)
    (hne : nuevo ≠ res.nombre) :
    (renombrar_persona m pid nuevo).2 = false ∧
    (renombrar_persona m pid nuevo).1 = m := by
  have inv := reachable_dbminv m h
  have hres_mem : res ∈ m.current.personas := List.mem_of_find?_eq_some hfind
  have hmatched : ∃ e ∈ m.current.etiquetas, e.texto = res.nombre ∧
      e.tipo = "persona" := by
    rcases inv.dbInv.consistencia res hres_mem with ⟨t, _, e, he, _, htx, htp⟩
    exact ⟨e, he, htx, htp⟩
  have hother : ∃ e ∈ m.current.etiquetas, e.texto = nuevo ∧
      ¬(e.texto = res.nombre ∧ e.tipo = "persona") := by
    rcases hconf with ⟨e, he, ht⟩
    exact ⟨e, he, ht, fun hcon => hne (ht.symm.trans hcon.1)⟩
  have hupd := updateEtiquetas_conflicto m.current.etiquetas res.nombre nuevo
    hmatched hother
  rw [renombrar_spec_conflicto m pid nuevo res hfind hupd,
    rollback_noop m inv.comprometido]
  exact ⟨rfl, rfl⟩

/-- Witness for the amended C8: renaming "Ana" (persona 1) to "Bob", a name
held by persona 2's tag, fails and leaves the state unchanged. -/
theorem renombrar_conflicto_sin_mutacion_witness :
    (renombrar_persona dbmDos 1 "Bob").2 = false ∧
    (renombrar_persona dbmDos 1 "Bob").1 = dbmDos :=
  renombrar_conflicto_sin_mutacion dbmDos
    (Reachable.step (execOp (Op.opRegistrarPersona 1 [1] area0 "Ana") initDBM)
      (Op.opRegistrarPersona 1 [2] area0 "Bob")
      (Reachable.step initDBM (Op.opRegistrarPersona 1 [1] area0 "Ana") Reachable.init))
    1 "Bob" { id := 1, nombre := "Ana", es_conocida := false, etiqueta_id := some 1 }
    (by decide) (by decide) (by decide)
